import Mathlib

/-!
Shallow embedding of the simulation engine of the `ai-crypto-demo` backend
(`app/models/blockchain.py`, `app/modules/blockchain_simulator.py`,
`app/modules/price_simulator.py`, `app/modules/tokenomics_engine.py`,
`app/modules/transaction_generator.py`).

Modelling conventions:
* Python `float` balances, prices and amounts are modelled as exact
  rationals (`ℚ`).
* `hashlib.sha256(data).hexdigest()` is modelled as an injective
  serialization of the hashed content into a `String` (a collision-free
  idealization of SHA-256).  Only the functional dependence of the digest
  on the hashed fields matters for the properties below; no theorem
  relies on any property of the encoding beyond computable equality.
* Python dicts (`address -> balance`) are modelled as association lists
  with first-occurrence lookup and in-place update, which agrees with
  dict semantics on duplicate-free key lists (the only ones the code
  produces).
* Calls to `random.*` and `datetime.now()` are modelled by passing the
  drawn values / timestamps as explicit arguments.
-/

/-- `dict.get(k, 0)`: balance lookup with default `0`. -/
def lookupD (l : List (String × ℚ)) (k : String) : ℚ :=
  match l with
  | [] => 0
  | (k', v) :: t => if k' = k then v else lookupD t k

/-- `dict[k] = v`: replace the binding of `k` (first occurrence), or append it. -/
def store (l : List (String × ℚ)) (k : String) (v : ℚ) : List (String × ℚ) :=
  match l with
  | [] => [(k, v)]
  | (k', v') :: t => if k' = k then (k, v) :: t else (k', v') :: store t k v

/-- Sum of all balances in the ledger. -/
def totalBal (l : List (String × ℚ)) : ℚ :=
  (l.map Prod.snd).sum

/-- Injective rendering of a rational, used inside modelled digests. -/
def ratStr (q : ℚ) : String :=
  toString q.num ++ "/" ++ toString q.den

/-- `models/blockchain.py::Transaction` (pydantic model).
`tx_hash` is the digest computed once in `model_post_init`. -/
structure Transaction where
  tx_hash : String
  from_address : String
  to_address : String
  amount : ℚ
  timestamp : ℚ
  block_index : Option Nat
deriving DecidableEq, Repr

/-- `Transaction._generate_hash`: SHA-256 over
`f"{from_address}{to_address}{amount}{timestamp}"`, modelled as an
injective serialization. -/
def txGenHash (from_address to_address : String) (amount timestamp : ℚ) : String :=
  "T(" ++ from_address ++ "," ++ to_address ++ "," ++ ratStr amount ++ ","
    ++ ratStr timestamp ++ ")"

/-- Construct a `Transaction` the way pydantic does: `tx_hash` is derived
in `model_post_init`, `block_index` defaults to `None`. -/
def mkTransaction (from_address to_address : String) (amount timestamp : ℚ) :
    Transaction :=
  { tx_hash := txGenHash from_address to_address amount timestamp
    from_address := from_address
    to_address := to_address
    amount := amount
    timestamp := timestamp
    block_index := none }

/-- `tx.model_dump()` as it appears inside a block's hashed serialization. -/
def txDump (tx : Transaction) : String :=
  "tx(tx_hash:" ++ tx.tx_hash ++ ",from:" ++ tx.from_address ++ ",to:"
    ++ tx.to_address ++ ",amount:" ++ ratStr tx.amount ++ ",timestamp:"
    ++ ratStr tx.timestamp ++ ",block_index:"
    ++ (match tx.block_index with
        | none => "null"
        | some n => toString n) ++ ")"

/-- `models/blockchain.py::Block` (pydantic model).
`hash` is the digest computed once in `model_post_init`; `nonce` is an
unused placeholder. -/
structure Block where
  index : Nat
  timestamp : ℚ
  transactions : List Transaction
  previous_hash : String
  hash : String
  nonce : Nat
deriving DecidableEq, Repr

/-- `Block._generate_hash`: SHA-256 over the sorted-key JSON dump of
`index`, `timestamp`, `transactions` (full dumps, `block_index`
included), `previous_hash` and `nonce` — everything except `hash`
itself.  Modelled as an injective serialization. -/
def blockGenHash (index : Nat) (timestamp : ℚ) (transactions : List Transaction)
    (previous_hash : String) (nonce : Nat) : String :=
  "B(" ++ toString index ++ ";" ++ ratStr timestamp ++ ";["
    ++ String.join (transactions.map txDump) ++ "];" ++ previous_hash ++ ";"
    ++ toString nonce ++ ")"

/-- Recompute a block's digest from its current fields, as
`current._generate_hash()` does inside `is_valid`. -/
def Block.generate_hash (b : Block) : String :=
  blockGenHash b.index b.timestamp b.transactions b.previous_hash b.nonce

/-- Construct a `Block` the way pydantic does: `hash` derived in
`model_post_init` from the fields at construction time, `nonce = 0`. -/
def mkBlock (index : Nat) (timestamp : ℚ) (transactions : List Transaction)
    (previous_hash : String) : Block :=
  { index := index
    timestamp := timestamp
    transactions := transactions
    previous_hash := previous_hash
    hash := blockGenHash index timestamp transactions previous_hash 0
    nonce := 0 }

instance : Inhabited Block :=
  ⟨mkBlock 0 0 [] ""⟩

/-- `models/blockchain.py::Blockchain`. -/
structure Blockchain where
  chain : List Block
  pending_transactions : List Transaction
deriving DecidableEq, Repr

/-- The genesis `previous_hash`, `"0" * 64`. -/
def zeros64 : String :=
  String.mk (List.replicate 64 '0')

/-- `Blockchain()` construction: `model_post_init` appends the genesis
block (index 0, empty transactions, all-zero previous hash).  The genesis
timestamp is the `datetime.now()` value, passed explicitly. -/
def Blockchain.init (genesisTime : ℚ) : Blockchain :=
  { chain := [mkBlock 0 genesisTime [] zeros64]
    pending_transactions := [] }

/-- `Blockchain.get_latest_block`: `self.chain[-1]`.  The Python code
would raise on an empty chain; every reachable chain is non-empty. -/
def Blockchain.get_latest_block (bc : Blockchain) : Block :=
  bc.chain.getLastD default

/-- `Blockchain.add_transaction`: append to the pending queue. -/
def Blockchain.addTx (bc : Blockchain) (tx : Transaction) : Blockchain :=
  { bc with pending_transactions := bc.pending_transactions ++ [tx] }

/-- `Blockchain.create_block(transactions=None)`: seal either the given
transactions or the pending queue (clearing the queue only in the latter
case) into a new block.  The block timestamp is `datetime.now()`, passed
explicitly.  Returns the new block and the updated chain state. -/
def Blockchain.create_block (bc : Blockchain) (transactions : Option (List Transaction))
    (now : ℚ) : Block × Blockchain :=
  let txs := transactions.getD bc.pending_transactions
  let new_block := mkBlock bc.chain.length now txs bc.get_latest_block.hash
  (new_block,
    { chain := bc.chain ++ [new_block]
      pending_transactions :=
        match transactions with
        | none => []
        | some _ => bc.pending_transactions })

/-- The loop body of `Blockchain.is_valid`: for every adjacent pair,
check the `previous_hash` link and that the stored hash matches a fresh
recomputation.  The loop starts at index 1, so a single-element chain is
vacuously valid. -/
def chainValid : List Block → Bool
  | b1 :: b2 :: rest =>
      (b2.previous_hash = b1.hash : Bool) && (b2.hash = b2.generate_hash : Bool)
        && chainValid (b2 :: rest)
  | _ => true

/-- `Blockchain.is_valid`. -/
def Blockchain.is_valid (bc : Blockchain) : Bool :=
  chainValid bc.chain

/-- `modules/blockchain_simulator.py::BlockchainSimulator` state:
the chain plus the address → balance ledger and block-timing fields. -/
structure BlockchainSimulator where
  blockchain : Blockchain
  ledger : List (String × ℚ)
  block_time : ℚ
  last_block_time : ℚ
deriving DecidableEq, Repr

/-- `BlockchainSimulator()` construction (`datetime.now()` passed
explicitly; it is also the genesis block's timestamp). -/
def BlockchainSimulator.init (now : ℚ) : BlockchainSimulator :=
  { blockchain := Blockchain.init now
    ledger := []
    block_time := 2
    last_block_time := now }

/-- The simulator method installing an initial distribution (named
`initialize` in the Python source). -/
def BlockchainSimulator.init_distribution (s : BlockchainSimulator)
    (initial_distribution : List (String × ℚ)) : BlockchainSimulator :=
  { s with ledger := initial_distribution }

/-- `BlockchainSimulator.add_transaction`: validate (insufficient
balance unless `"SYSTEM"`, then non-positive amount), and on success
debit/credit the ledger, build the transaction and append it to the
pending queue.  The transaction timestamp is `datetime.now()`, passed
explicitly.  Returns `none` and the unchanged state on rejection. -/
def BlockchainSimulator.add_transaction (s : BlockchainSimulator)
    (from_addr to_addr : String) (amount : ℚ) (now : ℚ) :
    Option Transaction × BlockchainSimulator :=
  if from_addr ≠ "SYSTEM" ∧ lookupD s.ledger from_addr < amount then
    (none, s)
  else if amount ≤ 0 then
    (none, s)
  else
    let tx := mkTransaction from_addr to_addr amount now
    let l1 :=
      if from_addr ≠ "SYSTEM" then
        store s.ledger from_addr (lookupD s.ledger from_addr - amount)
      else s.ledger
    let l2 := store l1 to_addr (lookupD l1 to_addr + amount)
    (some tx, { s with ledger := l2, blockchain := s.blockchain.addTx tx })

/-- `BlockchainSimulator.create_block`: seal the full pending queue via
`Blockchain.create_block()`, then stamp `tx.block_index` on each sealed
transaction.  In Python this mutates the very `Transaction` objects held
inside the block already appended to the chain, while the block's stored
`hash` (computed before the stamping) is left untouched; the model
therefore replaces the chain's last block by the stamped block with the
original `hash` field. -/
def BlockchainSimulator.create_block (s : BlockchainSimulator) (now : ℚ) :
    Block × BlockchainSimulator :=
  let res := s.blockchain.create_block none now
  let block := res.1
  let stamped :=
    { block with
        transactions :=
          block.transactions.map fun tx => { tx with block_index := some block.index } }
  (stamped,
    { s with
        blockchain := { res.2 with chain := res.2.chain.dropLast ++ [stamped] }
        last_block_time := now })

/-- `BlockchainSimulator.is_valid`. -/
def BlockchainSimulator.is_valid (s : BlockchainSimulator) : Bool :=
  s.blockchain.is_valid

/-- `modules/price_simulator.py::PriceSimulator` state. -/
structure PriceSimulator where
  initial_price : ℚ
  current_price : ℚ
  volatility : ℚ
  price_history : List (ℚ × ℚ)
  trend : ℚ
  trend_strength : ℚ
  trend_decay : ℚ
  mean_price : ℚ
  reversion_strength : ℚ
  support_levels : List ℚ
  resistance_levels : List ℚ
  all_time_high : ℚ
  all_time_low : ℚ
  price_changes : List ℚ
deriving DecidableEq, Repr

/-- `PriceSimulator(initial_price, volatility)` construction
(`datetime.now()` passed explicitly for the first history entry). -/
def PriceSimulator.init (initial_price volatility now : ℚ) : PriceSimulator :=
  { initial_price := initial_price
    current_price := initial_price
    volatility := volatility
    price_history := [(now, initial_price)]
    trend := 0
    trend_strength := 0.3
    trend_decay := 0.95
    mean_price := initial_price
    reversion_strength := 0.1
    support_levels := []
    resistance_levels := []
    all_time_high := initial_price
    all_time_low := initial_price
    price_changes := [] }

/-- `PriceSimulator._mean_reversion`. -/
def PriceSimulator.mean_reversion (s : PriceSimulator) : ℚ :=
  if s.mean_price = 0 then 0
  else (s.mean_price - s.current_price) / s.mean_price * s.reversion_strength

/-- `PriceSimulator._trend_component`. -/
def PriceSimulator.trend_component (s : PriceSimulator) : ℚ :=
  s.trend * s.trend_strength

/-- `PriceSimulator._support_resistance_effect`: start from `0.0`, add
`0.02` for every support level with
`0.95 * support <= current_price <= support`, then subtract `0.02` for
every resistance level with
`resistance <= current_price <= 1.05 * resistance`. -/
def PriceSimulator.support_resistance_effect (s : PriceSimulator) : ℚ :=
  let e1 := s.support_levels.foldl
    (fun e support =>
      if 0.95 * support ≤ s.current_price ∧ s.current_price ≤ support then
        e + 0.02
      else e) 0
  s.resistance_levels.foldl
    (fun e resistance =>
      if resistance ≤ s.current_price ∧ s.current_price ≤ 1.05 * resistance then
        e - 0.02
      else e) e1

/-- `PriceSimulator.update_price(timestamp)`: sum the four components,
clamp to `±volatility`, apply the change, floor the price at `0.0001`,
record statistics, update the EMA mean and decay the trend.  The
Brownian component (`random.gauss(0, volatility)`) is the one random
draw; its outcome is passed explicitly.  Returns the new price and the
updated state. -/
def PriceSimulator.update_price (s : PriceSimulator) (timestamp brownian : ℚ) :
    ℚ × PriceSimulator :=
  let reversion := s.mean_reversion
  let trend := s.trend_component
  let sr_effect := s.support_resistance_effect
  let total_change := brownian + reversion + trend + sr_effect
  let change_factor := max (-s.volatility) (min s.volatility total_change)
  let new_price := s.current_price * (1 + change_factor)
  let new_price := max 0.0001 new_price
  let price_change :=
    if s.current_price > 0 then (new_price - s.current_price) / s.current_price
    else 0
  (new_price,
    { s with
        current_price := new_price
        price_history := s.price_history ++ [(timestamp, new_price)]
        price_changes := s.price_changes ++ [price_change]
        all_time_high := max s.all_time_high new_price
        all_time_low := min s.all_time_low new_price
        mean_price := s.mean_price * 0.99 + new_price * 0.01
        trend := s.trend * s.trend_decay })

/-- `models/cryptocurrency.py::TokenomicsConfig` with its defaults. -/
structure TokenomicsConfig where
  total_supply : ℚ := 1000000
  initial_price : ℚ := 0.01
  inflation_rate : ℚ := 0.02
  block_reward : ℚ := 50
  stability_factor : ℚ := 0.1
  min_price : ℚ := 0.0001
  max_price : ℚ := 1000
deriving DecidableEq, Repr

/-- `modules/tokenomics_engine.py::TokenomicsEngine` state. -/
structure TokenomicsEngine where
  config : TokenomicsConfig
  circulating_supply : ℚ
  total_supply : ℚ
  current_price : ℚ
  buy_pressure : ℚ
  sell_pressure : ℚ
  price_history : List (ℚ × ℚ)
deriving DecidableEq, Repr

/-- `TokenomicsEngine(config)` construction. -/
def TokenomicsEngine.init (config : TokenomicsConfig) : TokenomicsEngine :=
  { config := config
    circulating_supply := 0
    total_supply := config.total_supply
    current_price := config.initial_price
    buy_pressure := 0
    sell_pressure := 0
    price_history := [] }

/-- `TokenomicsEngine.update_supply(amount, is_mint)`: mint clamps the
circulating supply to `total_supply`, burn clamps it to `0`. -/
def TokenomicsEngine.update_supply (e : TokenomicsEngine) (amount : ℚ)
    (is_mint : Bool) : ℚ × TokenomicsEngine :=
  let c :=
    if is_mint then min (e.circulating_supply + amount) e.total_supply
    else max 0 (e.circulating_supply - amount)
  (c, { e with circulating_supply := c })

/-- `TokenomicsEngine.calculate_price(timestamp)`: normalize the net
pressure by the circulating supply (zero if non-positive supply), damp
by the stability factor, clamp the resulting price into
`[min_price, max_price]`, record it, and decay both pressures by `0.9`
unconditionally.  Returns the new price and the updated state. -/
def TokenomicsEngine.calculate_price (e : TokenomicsEngine) (timestamp : ℚ) :
    ℚ × TokenomicsEngine :=
  let net_pressure := e.buy_pressure - e.sell_pressure
  let pressure_ratio :=
    if e.circulating_supply > 0 then net_pressure / e.circulating_supply else 0
  let price_change := pressure_ratio * e.config.stability_factor
  let new_price := e.current_price * (1 + price_change)
  let new_price := max e.config.min_price (min e.config.max_price new_price)
  (new_price,
    { e with
        current_price := new_price
        price_history := e.price_history ++ [(timestamp, new_price)]
        buy_pressure := e.buy_pressure * 0.9
        sell_pressure := e.sell_pressure * 0.9 })

/-- `TokenomicsEngine.apply_block_reward(miner_address)`: start from the
configured block reward, truncate it to the remaining headroom when it
would push the circulating supply past the total supply, and mint it
(via `update_supply`) when positive.  Returns the reward and the
updated state. -/
def TokenomicsEngine.apply_block_reward (e : TokenomicsEngine) :
    ℚ × TokenomicsEngine :=
  let reward := e.config.block_reward
  let reward :=
    if e.circulating_supply + reward > e.total_supply then
      e.total_supply - e.circulating_supply
    else reward
  let e' := if reward > 0 then (e.update_supply reward true).2 else e
  (reward, e')

/-- `modules/transaction_generator.py::TransactionType`. -/
inductive TransactionType where
  | buy
  | sell
  | transfer
deriving DecidableEq, Repr

/-- `modules/transaction_generator.py::GeneratedTransaction`. -/
structure GeneratedTransaction where
  tx_type : TransactionType
  from_address : String
  to_address : String
  amount : ℚ
deriving DecidableEq, Repr

/-- `modules/transaction_generator.py::TransactionGenerator` state, with
the numeric parameters set in `__init__`.  The exchange and treasury
addresses are random content-derived strings, passed explicitly. -/
structure TransactionGenerator where
  wallets : List String
  wallet_balances : List (String × ℚ)
  exchange_address : String
  treasury_address : String
  buy_probability : ℚ
  sell_probability : ℚ
  transfer_probability : ℚ
  min_amount : ℚ
  max_amount : ℚ
  whale_threshold : ℚ
deriving DecidableEq, Repr

/-- `TransactionGenerator()` construction with the `__init__` defaults. -/
def TransactionGenerator.init (exchange_address treasury_address : String) :
    TransactionGenerator :=
  { wallets := []
    wallet_balances := []
    exchange_address := exchange_address
    treasury_address := treasury_address
    buy_probability := 0.45
    sell_probability := 0.35
    transfer_probability := 0.20
    min_amount := 1
    max_amount := 10000
    whale_threshold := 0.1 }

/-- `random.uniform(a, b)`, with the outcome of `random.random()` passed
as `u ∈ [0, 1]`: `a + (b - a) * u`. -/
def uniformDraw (a b u : ℚ) : ℚ :=
  a + (b - a) * u

/-- Python 3's `round(x, 2)` on the exact value: round to the nearest
multiple of `1/100`, ties to even (banker's rounding). -/
def round2 (x : ℚ) : ℚ :=
  let y := x * 100
  let n : ℤ :=
    if y - ⌊y⌋ = 1 / 2 then (if ⌊y⌋ % 2 = 0 then ⌊y⌋ else ⌊y⌋ + 1)
    else round y
  (n : ℚ) / 100

/-- `TransactionGenerator.get_random_wallet(exclude)`: pick a uniformly
random element of the wallets different from `exclude` (all of them when
`exclude` is `None`); when there is no candidate, return a freshly
generated address.  The choice is modelled by an index taken modulo the
candidate count, the fresh address by an explicit argument. -/
def TransactionGenerator.get_random_wallet (g : TransactionGenerator)
    (exclude : Option String) (choice : Nat) (fresh : String) : String :=
  let candidates := g.wallets.filter fun w => some w ≠ exclude
  if candidates.isEmpty then fresh
  else candidates.getD (choice % candidates.length) fresh

/-- The random draws consumed by one `generate_transaction` call:
`typeRand` and `whaleRand` are `random.random()` outcomes, `u` is the
position of the `random.uniform` draw inside its range, `choice1/2` and
`fresh1/2` model the wallet choices. -/
structure GenRand where
  typeRand : ℚ
  whaleRand : ℚ
  u : ℚ
  choice1 : Nat
  choice2 : Nat
  fresh1 : String
  fresh2 : String

/-- `TransactionGenerator.generate_transaction`: sample the type from
the configured probabilities, the amount from the whale range
`[0.5 * max, max]` (when `whaleRand < whale_threshold`) or the retail
range `[min, 0.1 * max]`, round it to two decimals, and route the
addresses by type (buy: exchange → wallet, sell: wallet → exchange,
transfer: wallet → distinct wallet). -/
def TransactionGenerator.generate_transaction (g : TransactionGenerator)
    (r : GenRand) : GeneratedTransaction :=
  let tx_type :=
    if r.typeRand < g.buy_probability then TransactionType.buy
    else if r.typeRand < g.buy_probability + g.sell_probability then
      TransactionType.sell
    else TransactionType.transfer
  let amount :=
    if r.whaleRand < g.whale_threshold then
      uniformDraw (g.max_amount * 0.5) g.max_amount r.u
    else
      uniformDraw g.min_amount (g.max_amount * 0.1) r.u
  let amount := round2 amount
  match tx_type with
  | TransactionType.buy =>
      { tx_type := tx_type
        from_address := g.exchange_address
        to_address := g.get_random_wallet none r.choice1 r.fresh1
        amount := amount }
  | TransactionType.sell =>
      { tx_type := tx_type
        from_address := g.get_random_wallet none r.choice1 r.fresh1
        to_address := g.exchange_address
        amount := amount }
  | TransactionType.transfer =>
      let from_addr := g.get_random_wallet none r.choice1 r.fresh1
      { tx_type := tx_type
        from_address := from_addr
        to_address := g.get_random_wallet (some from_addr) r.choice2 r.fresh2
        amount := amount }

/-- Concrete state used to instantiate the ledger theorems: a fresh
simulator initialized with the distribution `{A: 100}`. -/
def simA : BlockchainSimulator :=
  (BlockchainSimulator.init 0).init_distribution [("A", 100)]

/-- Concrete three-call run for the chain-validity claim: fresh
simulator, distribution `{A: 100}`, one accepted transfer, one sealed
block. -/
def simSeal : BlockchainSimulator :=
  (((BlockchainSimulator.init 0).init_distribution [("A", 100)]).add_transaction
    "A" "B" 30 1).2

/-- The state after sealing the single pending transaction. -/
def simSealed : BlockchainSimulator :=
  (simSeal.create_block 2).2

/-! ### Tampering with stored blocks (claim C4) -/

/-- Overwrite the stored `hash` field of the block at position `i`
(no-op when `i` is out of range). -/
def setBlockHash (bc : Blockchain) (i : Nat) (h' : String) : Blockchain :=
  match bc.chain.get? i with
  | none => bc
  | some b => { bc with chain := bc.chain.set i { b with hash := h' } }

/-- Overwrite the stored `previous_hash` field of the block at position
`i` (no-op when `i` is out of range). -/
def setBlockPrevHash (bc : Blockchain) (i : Nat) (p' : String) : Blockchain :=
  match bc.chain.get? i with
  | none => bc
  | some b => { bc with chain := bc.chain.set i { b with previous_hash := p' } }

/-- Concrete two-block valid chain for the tampering witness: genesis
plus one (empty) sealed block. -/
def bcTwo : Blockchain :=
  ((Blockchain.init 0).create_block none 1).2

/-- Low-price state used against claim C5: all deterministic components
vanish, the price is positive but below the `0.0001` floor. -/
def simLowPrice : PriceSimulator :=
  PriceSimulator.init (1 / 100000) (1 / 20) 0

/-- Engine with zero circulating supply and adversarial pressures, used
to instantiate C6. -/
def engineExtreme : TokenomicsEngine :=
  { config := {}
    circulating_supply := 0
    total_supply := 1000000
    current_price := 0.01
    buy_pressure := 1000000000
    sell_pressure := -500
    price_history := [] }

/-- The spec's example engine: `total_supply = 1000`,
`circulating = 990`, `block_reward = 50`. -/
def engine990 : TokenomicsEngine :=
  { config := { block_reward := 50 }
    circulating_supply := 990
    total_supply := 1000
    current_price := 1
    buy_pressure := 0
    sell_pressure := 0
    price_history := [] }

/-- The support/resistance component as claim C9's sentence reads: add
`0.02` for each support level the current price sits within 5% ABOVE
(`support <= price <= 1.05 * support`), subtract `0.02` for each
resistance level the current price sits within 5% BELOW
(`0.95 * resistance <= price <= resistance`).  Stated only to be
compared against the code's `support_resistance_effect`. -/
def support_resistance_effect_claimed (s : PriceSimulator) : ℚ :=
  0.02 * ((s.support_levels.filter fun lvl =>
      decide (lvl ≤ s.current_price ∧ s.current_price ≤ 1.05 * lvl)).length : ℚ)
    - 0.02 * ((s.resistance_levels.filter fun lvl =>
      decide (0.95 * lvl ≤ s.current_price ∧ s.current_price ≤ lvl)).length : ℚ)

/-- Price sitting 4% above the single support level `100`. -/
def simNearSupport : PriceSimulator :=
  { PriceSimulator.init 100 0.05 0 with
      current_price := 104
      support_levels := [100] }

/-- A generator with the `__init__` defaults. -/
def genDefault : TransactionGenerator :=
  TransactionGenerator.init "EXCH" "TREA"

/-- A retail-branch outcome of the random draws. -/
def randRetail : GenRand :=
  { typeRand := 0
    whaleRand := 0.5
    u := 0
    choice1 := 0
    choice2 := 0
    fresh1 := "W1"
    fresh2 := "W2" }

/-! ### Ledger (association list) lemmas -/

lemma lookupD_store_self (l : List (String × ℚ)) (k : String) (v : ℚ) :
    lookupD (store l k v) k = v := by
  induction l with
  | nil => simp [store, lookupD]
  | cons p t ih =>
      obtain ⟨k', v'⟩ := p
      by_cases h : k' = k
      · simp [store, lookupD, h]
      · simp [store, lookupD, h, ih]

lemma lookupD_store_ne (l : List (String × ℚ)) (k k' : String) (v : ℚ)
    (h : k ≠ k') : lookupD (store l k v) k' = lookupD l k' := by
  induction l with
  | nil => simp [store, lookupD, h]
  | cons p t ih =>
      obtain ⟨k₀, v₀⟩ := p
      by_cases h0 : k₀ = k
      · subst h0
        simp [store, lookupD, h]
      · simp only [store, if_neg h0, lookupD]
        by_cases h1 : k₀ = k'
        · simp [h1]
        · simp [h1, ih]

lemma totalBal_store (l : List (String × ℚ)) (k : String) (v : ℚ) :
    totalBal (store l k v) = totalBal l + v - lookupD l k := by
  induction l with
  | nil => simp [store, totalBal, lookupD]
  | cons p t ih =>
      obtain ⟨k₀, v₀⟩ := p
      by_cases h0 : k₀ = k
      · simp [store, totalBal, lookupD, h0]
        ring
      · simp only [store, if_neg h0, totalBal, lookupD, List.map_cons, List.sum_cons] at *
        rw [ih]
        ring

/-- Shared rejection characterization of
`BlockchainSimulator.add_transaction`: the call returns `None` exactly
when the amount is non-positive, or the sender is not `"SYSTEM"` and its
balance is below the amount. -/
lemma add_transaction_rejects_iff (s : BlockchainSimulator)
    (from_addr to_addr : String) (amount now : ℚ) :
    (s.add_transaction from_addr to_addr amount now).1 = none ↔
      amount ≤ 0 ∨ (from_addr ≠ "SYSTEM" ∧ lookupD s.ledger from_addr < amount) := by
  unfold BlockchainSimulator.add_transaction
  by_cases h1 : from_addr ≠ "SYSTEM" ∧ lookupD s.ledger from_addr < amount
  · simp [h1]
  · by_cases h2 : amount ≤ 0
    · simp [h1, h2]
    · simp [h1, h2]

/-- Shared no-mutation fact: a rejected `add_transaction` call returns
the state unchanged. -/
lemma add_transaction_rejects_state (s : BlockchainSimulator)
    (from_addr to_addr : String) (amount now : ℚ)
    (h : (s.add_transaction from_addr to_addr amount now).1 = none) :
    (s.add_transaction from_addr to_addr amount now).2 = s := by
  unfold BlockchainSimulator.add_transaction at *
  by_cases h1 : from_addr ≠ "SYSTEM" ∧ lookupD s.ledger from_addr < amount
  · simp [h1]
  · by_cases h2 : amount ≤ 0
    · simp [h1, h2]
    · simp [h1, h2] at h

/-- C2 (confirmed): `add_transaction(from, to, amount)` returns a
rejection (`None`, never an exception — the embedding is total) exactly
when `amount <= 0`, or `from != "SYSTEM"` and the sender's balance is
below `amount`; and every rejected call leaves the whole simulator state
(balances and pending queue included) unchanged. -/
theorem C2_add_transaction_rejection (s : BlockchainSimulator)
    (from_addr to_addr : String) (amount now : ℚ) :
    ((s.add_transaction from_addr to_addr amount now).1 = none ↔
      amount ≤ 0 ∨ (from_addr ≠ "SYSTEM" ∧ lookupD s.ledger from_addr < amount)) ∧
    ((s.add_transaction from_addr to_addr amount now).1 = none →
      (s.add_transaction from_addr to_addr amount now).2 = s) :=
  ⟨add_transaction_rejects_iff s from_addr to_addr amount now,
   add_transaction_rejects_state s from_addr to_addr amount now⟩

/-- C2 witness: with balances `{A: 100}`, `add_transaction("A", "B", 1000)`
is rejected and the state is unchanged. -/
theorem C2_add_transaction_rejection_witness :
    (simA.add_transaction "A" "B" 1000 1).1 = none ∧
    (simA.add_transaction "A" "B" 1000 1).2 = simA := by
  have h := C2_add_transaction_rejection simA "A" "B" 1000 1
  have hrej : (simA.add_transaction "A" "B" 1000 1).1 = none :=
    h.1.mpr (Or.inr ⟨by decide, by decide⟩)
  exact ⟨hrej, h.2 hrej⟩

/-- C1 counterexample: with balances `{A: 100}`, the call
`add_transaction("A", "A", 30)` satisfies every premise of the claim
(`from != "SYSTEM"`, `amount > 0`, sender balance `>= amount`) and
succeeds, yet the sender's balance is left at `100` instead of being
decreased by `30`: the debit is immediately undone by the credit to the
same address. -/
theorem C1_self_transfer_counterexample :
    ("A" : String) ≠ "SYSTEM" ∧ (0 : ℚ) < 30 ∧
    (30 : ℚ) ≤ lookupD simA.ledger "A" ∧
    (simA.add_transaction "A" "A" 30 1).1.isSome = true ∧
    lookupD (simA.add_transaction "A" "A" 30 1).2.ledger "A" = 100 := by
  refine ⟨by decide, by norm_num, by decide, ?_, ?_⟩ <;>
    norm_num [simA, BlockchainSimulator.init, BlockchainSimulator.init_distribution,
      BlockchainSimulator.add_transaction, lookupD, store]

/-- C1 (corrected): for a successful non-`SYSTEM` transfer between two
DISTINCT addresses the sender is debited and the receiver credited by
exactly `amount` and the balance sum is preserved; for `from = to` the
single balance is unchanged (sum still preserved); for a successful
`SYSTEM` mint no balance is debited (only the receiver changes, upward)
and the sum grows by exactly `amount`. -/
theorem C1_add_transaction_conservation (s : BlockchainSimulator)
    (from_addr to_addr : String) (amount now : ℚ) :
    (from_addr ≠ "SYSTEM" → 0 < amount → amount ≤ lookupD s.ledger from_addr →
      (from_addr ≠ to_addr →
        (s.add_transaction from_addr to_addr amount now).1.isSome = true ∧
        lookupD (s.add_transaction from_addr to_addr amount now).2.ledger from_addr
          = lookupD s.ledger from_addr - amount ∧
        lookupD (s.add_transaction from_addr to_addr amount now).2.ledger to_addr
          = lookupD s.ledger to_addr + amount ∧
        totalBal (s.add_transaction from_addr to_addr amount now).2.ledger
          = totalBal s.ledger) ∧
      (from_addr = to_addr →
        (s.add_transaction from_addr to_addr amount now).1.isSome = true ∧
        lookupD (s.add_transaction from_addr to_addr amount now).2.ledger from_addr
          = lookupD s.ledger from_addr ∧
        totalBal (s.add_transaction from_addr to_addr amount now).2.ledger
          = totalBal s.ledger)) ∧
    (from_addr = "SYSTEM" → 0 < amount →
      (s.add_transaction from_addr to_addr amount now).1.isSome = true ∧
      lookupD (s.add_transaction from_addr to_addr amount now).2.ledger to_addr
        = lookupD s.ledger to_addr + amount ∧
      (∀ a, a ≠ to_addr →
        lookupD (s.add_transaction from_addr to_addr amount now).2.ledger a
          = lookupD s.ledger a) ∧
      totalBal (s.add_transaction from_addr to_addr amount now).2.ledger
        = totalBal s.ledger + amount) := by
  constructor
  · intro hsys hpos hbal
    have hnolow : ¬ (from_addr ≠ "SYSTEM" ∧ lookupD s.ledger from_addr < amount) := by
      rintro ⟨-, hlt⟩
      exact absurd hbal (not_le.mpr hlt)
    have hnneg : ¬ amount ≤ 0 := not_le.mpr hpos
    constructor
    · intro hne
      unfold BlockchainSimulator.add_transaction
      rw [if_neg hnolow, if_neg hnneg]
      simp only [Option.isSome_some, if_pos hsys]
      refine ⟨trivial, ?_, ?_, ?_⟩
      · rw [lookupD_store_ne _ to_addr from_addr _ (Ne.symm hne),
          lookupD_store_self]
      · rw [lookupD_store_self, lookupD_store_ne _ from_addr to_addr _ hne]
      · rw [totalBal_store, lookupD_store_ne _ from_addr to_addr _ hne,
          totalBal_store]
        ring
    · intro heq
      subst heq
      unfold BlockchainSimulator.add_transaction
      rw [if_neg hnolow, if_neg hnneg]
      simp only [Option.isSome_some, if_pos hsys]
      refine ⟨trivial, ?_, ?_⟩
      · rw [lookupD_store_self, lookupD_store_self]
        ring
      · rw [totalBal_store, lookupD_store_self, totalBal_store]
        ring
  · intro hsys hpos
    have hnolow : ¬ (from_addr ≠ "SYSTEM" ∧ lookupD s.ledger from_addr < amount) := by
      rintro ⟨hne, -⟩
      exact hne hsys
    have hnneg : ¬ amount ≤ 0 := not_le.mpr hpos
    have hsys' : ¬ from_addr ≠ "SYSTEM" := by
      intro hne
      exact hne hsys
    unfold BlockchainSimulator.add_transaction
    rw [if_neg hnolow, if_neg hnneg]
    simp only [Option.isSome_some, if_neg hsys']
    refine ⟨trivial, lookupD_store_self _ _ _, ?_, ?_⟩
    · intro a ha
      exact lookupD_store_ne _ to_addr a _ (fun h => ha h.symm)
    · rw [totalBal_store]
      ring

/-- C1 witness: with balances `{A: 100}`, `add_transaction("A", "B", 30)`
debits `A` to `70`, credits `B` to `30` and preserves the total; a
`SYSTEM` mint of `50` to `M` raises the total by `50`. -/
theorem C1_add_transaction_conservation_witness :
    ((simA.add_transaction "A" "B" 30 1).1.isSome = true ∧
      lookupD (simA.add_transaction "A" "B" 30 1).2.ledger "A"
        = lookupD simA.ledger "A" - 30 ∧
      lookupD (simA.add_transaction "A" "B" 30 1).2.ledger "B"
        = lookupD simA.ledger "B" + 30 ∧
      totalBal (simA.add_transaction "A" "B" 30 1).2.ledger = totalBal simA.ledger) ∧
    ((simA.add_transaction "SYSTEM" "M" 50 2).1.isSome = true ∧
      lookupD (simA.add_transaction "SYSTEM" "M" 50 2).2.ledger "M"
        = lookupD simA.ledger "M" + 50 ∧
      totalBal (simA.add_transaction "SYSTEM" "M" 50 2).2.ledger
        = totalBal simA.ledger + 50) := by
  have h1 := C1_add_transaction_conservation simA "A" "B" 30 1
  have h2 := C1_add_transaction_conservation simA "SYSTEM" "M" 50 2
  have ha := (h1.1 (by decide) (by norm_num) (by decide)).1 (by decide)
  have hb := h2.2 rfl (by norm_num)
  exact ⟨ha, hb.1, hb.2.1, hb.2.2.2⟩

/-- C3 (code bug): `is_valid()` is true on a freshly created ledger, and
the transfer `add_transaction("A", "B", 30)` is accepted, yet after
`create_block()` seals it the chain is INVALID: `create_block` stamps
`block_index` on the very transaction objects held inside the sealed
block after the block hash was computed over `block_index = None`, so
`is_valid`'s recomputed hash no longer matches the stored one. -/
theorem C3_is_valid_broken_by_sealing :
    (BlockchainSimulator.init 0).is_valid = true ∧
    ((((BlockchainSimulator.init 0).init_distribution [("A", 100)]).add_transaction
      "A" "B" 30 1).1).isSome = true ∧
    simSealed.is_valid = false := by
  refine ⟨by decide, by decide, by decide⟩

lemma chainValid_cons_iff (b1 b2 : Block) (rest : List Block) :
    chainValid (b1 :: b2 :: rest) = true ↔
      b2.previous_hash = b1.hash ∧ b2.hash = b2.generate_hash ∧
        chainValid (b2 :: rest) = true := by
  simp [chainValid, Bool.and_eq_true, decide_eq_true_eq, and_assoc]

/-- Overwriting the stored hash of any block at position `>= 1` of a
valid chain with a different value fails validation. -/
lemma chainValid_set_hash_false :
    ∀ (l : List Block) (i : Nat) (b : Block), chainValid l = true →
      l.get? (i + 1) = some b → ∀ h', h' ≠ b.hash →
      chainValid (l.set (i + 1) { b with hash := h' }) = false := by
  intro l
  induction l with
  | nil => intro i b _ hb; simp at hb
  | cons b1 t ih =>
      intro i b hv hb h' hne
      match t, hb with
      | b2 :: r, hb =>
          have hv' := (chainValid_cons_iff b1 b2 r).mp hv
          cases i with
          | zero =>
              simp only [List.get?_cons_succ, List.get?_cons_zero,
                Option.some.injEq] at hb
              subst hb
              have hgen : ¬ h' = b2.generate_hash := by
                rw [← hv'.2.1]; exact hne
              rw [Block.generate_hash] at hgen
              simp [chainValid, Block.generate_hash, hgen]
          | succ j =>
              have hb' : (b2 :: r).get? (j + 1) = some b := hb
              have hrec := ih j b hv'.2.2 hb' h' hne
              have hset : (b1 :: b2 :: r).set (j + 1 + 1) { b with hash := h' }
                  = b1 :: ((b2 :: r).set (j + 1) { b with hash := h' }) := rfl
              rw [hset]
              cases hr : (b2 :: r).set (j + 1) { b with hash := h' } with
              | nil => simp at hr
              | cons c cs =>
                  rw [hr] at hrec
                  simp [chainValid, hrec]

/-- Overwriting the stored `previous_hash` of any block at position
`>= 1` of a valid chain with a different value fails validation. -/
lemma chainValid_set_prev_false :
    ∀ (l : List Block) (i : Nat) (b : Block), chainValid l = true →
      l.get? (i + 1) = some b → ∀ p', p' ≠ b.previous_hash →
      chainValid (l.set (i + 1) { b with previous_hash := p' }) = false := by
  intro l
  induction l with
  | nil => intro i b _ hb; simp at hb
  | cons b1 t ih =>
      intro i b hv hb p' hne
      match t, hb with
      | b2 :: r, hb =>
          have hv' := (chainValid_cons_iff b1 b2 r).mp hv
          cases i with
          | zero =>
              simp only [List.get?_cons_succ, List.get?_cons_zero,
                Option.some.injEq] at hb
              subst hb
              have hlink : ¬ p' = b1.hash := by
                rw [← hv'.1]; exact hne
              simp [chainValid, hlink]
          | succ j =>
              have hb' : (b2 :: r).get? (j + 1) = some b := hb
              have hrec := ih j b hv'.2.2 hb' p' hne
              have hset :
                  (b1 :: b2 :: r).set (j + 1 + 1) { b with previous_hash := p' }
                  = b1 :: ((b2 :: r).set (j + 1) { b with previous_hash := p' }) := rfl
              rw [hset]
              cases hr : (b2 :: r).set (j + 1) { b with previous_hash := p' } with
              | nil => simp at hr
              | cons c cs =>
                  rw [hr] at hrec
                  simp [chainValid, hrec]

/-- C4 counterexample: on a chain holding only the genesis block,
overwriting the genesis block's stored `hash` — or its `previous_hash` —
with a different value leaves `is_valid()` TRUE: the validation loop
starts at index 1 and never examines the genesis block. -/
theorem C4_genesis_tamper_counterexample :
    (Blockchain.init 0).is_valid = true ∧
    ("f00" : String) ≠ ((Blockchain.init 0).chain.getD 0 default).hash ∧
    (setBlockHash (Blockchain.init 0) 0 "f00").is_valid = true ∧
    ("f00" : String) ≠ ((Blockchain.init 0).chain.getD 0 default).previous_hash ∧
    (setBlockPrevHash (Blockchain.init 0) 0 "f00").is_valid = true := by
  refine ⟨by decide, by decide, by decide, by decide, by decide⟩

/-- C4 (corrected): tampering is detected for every NON-genesis block:
on any valid chain, overwriting the stored `hash` or `previous_hash` of
the block at any position `i >= 1` with a different value makes
`is_valid()` false.  The genesis block is excluded: the validation loop
starts at index 1, so its `previous_hash` is never checked anywhere and
its `hash` is only cross-checked through block 1's linkage (hence
nothing at all is checked on a genesis-only chain). -/
theorem C4_tamper_detected (bc : Blockchain) (i : Nat) (b : Block)
    (hb : bc.chain.get? (i + 1) = some b) (hv : bc.is_valid = true) :
    (∀ h', h' ≠ b.hash → (setBlockHash bc (i + 1) h').is_valid = false) ∧
    (∀ p', p' ≠ b.previous_hash →
      (setBlockPrevHash bc (i + 1) p').is_valid = false) := by
  constructor
  · intro h' hne
    have := chainValid_set_hash_false bc.chain i b hv hb h' hne
    simp only [setBlockHash, hb, Blockchain.is_valid]
    exact this
  · intro p' hne
    have := chainValid_set_prev_false bc.chain i b hv hb p' hne
    simp only [setBlockPrevHash, hb, Blockchain.is_valid]
    exact this

/-- C4 witness: on the concrete two-block chain, overwriting block 1's
hash with `"X"` or its `previous_hash` with `"Y"` makes `is_valid()`
false. -/
theorem C4_tamper_detected_witness :
    (setBlockHash bcTwo 1 "X").is_valid = false ∧
    (setBlockPrevHash bcTwo 1 "Y").is_valid = false := by
  have h := C4_tamper_detected bcTwo 0 (bcTwo.chain.getD 1 default)
    (by decide) (by decide)
  exact ⟨h.1 "X" (by decide), h.2 "Y" (by decide)⟩

/-! ### Price process (claims C5, C9) -/

lemma update_price_fst (s : PriceSimulator) (ts brownian : ℚ) :
    (s.update_price ts brownian).1 =
      max 0.0001 (s.current_price *
        (1 + max (-s.volatility) (min s.volatility
          (brownian + s.mean_reversion + s.trend_component
            + s.support_resistance_effect)))) := rfl

/-- C5 counterexample: with current price `1/100000 > 0` (a fresh
simulator constructed with that initial price), volatility `0.05` and
every component equal to zero, `update_price` clamps the new price up to
the `0.0001` floor, so the realized fractional change is `9` — far above
`volatility`. -/
theorem C5_floor_jump_counterexample :
    0 < simLowPrice.current_price ∧
    ((simLowPrice.update_price 1 0).1 - simLowPrice.current_price)
        / simLowPrice.current_price > simLowPrice.volatility := by
  constructor
  · norm_num [simLowPrice, PriceSimulator.init]
  · rw [update_price_fst]
    norm_num [simLowPrice, PriceSimulator.init, PriceSimulator.mean_reversion,
      PriceSimulator.trend_component, PriceSimulator.support_resistance_effect,
      min_def, max_def]

/-- C5 (corrected): when the state's current price is at or above the
`0.0001` floor (and the volatility cap is non-negative), the price
returned by `update_price` is `>= 0.0001` and the realized fractional
change lies in `[-volatility, volatility]` whatever the Brownian draw
and the other component magnitudes.  Below the floor the bound fails
(see the counterexample), because flooring can raise the price by an
arbitrarily large fraction. -/
theorem C5_price_floor_and_bounded_change (s : PriceSimulator) (ts brownian : ℚ)
    (hvol : 0 ≤ s.volatility) (hp : (0.0001 : ℚ) ≤ s.current_price) :
    (0.0001 : ℚ) ≤ (s.update_price ts brownian).1 ∧
    -s.volatility ≤
      ((s.update_price ts brownian).1 - s.current_price) / s.current_price ∧
    ((s.update_price ts brownian).1 - s.current_price) / s.current_price
      ≤ s.volatility := by
  have hc : (0 : ℚ) < s.current_price := lt_of_lt_of_le (by norm_num) hp
  rw [update_price_fst]
  set t := brownian + s.mean_reversion + s.trend_component
    + s.support_resistance_effect with ht
  set ch := max (-s.volatility) (min s.volatility t) with hch
  have hch1 : -s.volatility ≤ ch := le_max_left _ _
  have hch2 : ch ≤ s.volatility := max_le (by linarith) (min_le_left _ _)
  refine ⟨le_max_left _ _, ?_, ?_⟩
  all_goals
    by_cases hcase : (0.0001 : ℚ) ≤ s.current_price * (1 + ch)
  · rw [max_eq_right hcase]
    have heq : (s.current_price * (1 + ch) - s.current_price) / s.current_price
        = ch := by
      field_simp
      ring
    rw [heq]
    exact hch1
  · rw [max_eq_left (le_of_lt (not_le.mp hcase))]
    have hd : s.current_price * ((0.0001 - s.current_price) / s.current_price)
        = 0.0001 - s.current_price := by
      field_simp
    have hlt := not_le.mp hcase
    have hmul : s.current_price * ch
        < s.current_price * ((0.0001 - s.current_price) / s.current_price) := by
      rw [hd]; nlinarith
    have hchlt : ch < (0.0001 - s.current_price) / s.current_price :=
      lt_of_mul_lt_mul_left hmul hc.le
    linarith
  · rw [max_eq_right hcase]
    have heq : (s.current_price * (1 + ch) - s.current_price) / s.current_price
        = ch := by
      field_simp
      ring
    rw [heq]
    exact hch2
  · rw [max_eq_left (le_of_lt (not_le.mp hcase))]
    have hnp : (0.0001 - s.current_price) / s.current_price ≤ 0 :=
      div_nonpos_iff.mpr (Or.inr ⟨by linarith, by linarith⟩)
    linarith

/-- C5 witness: a fresh simulator at price `100` with volatility `0.05`
and Brownian draw `0` satisfies the floor and the change bounds. -/
theorem C5_price_floor_and_bounded_change_witness :
    (0.0001 : ℚ) ≤ ((PriceSimulator.init 100 0.05 0).update_price 1 0).1 ∧
    -(PriceSimulator.init 100 0.05 0).volatility ≤
      (((PriceSimulator.init 100 0.05 0).update_price 1 0).1
        - (PriceSimulator.init 100 0.05 0).current_price)
        / (PriceSimulator.init 100 0.05 0).current_price ∧
    (((PriceSimulator.init 100 0.05 0).update_price 1 0).1
        - (PriceSimulator.init 100 0.05 0).current_price)
        / (PriceSimulator.init 100 0.05 0).current_price
      ≤ (PriceSimulator.init 100 0.05 0).volatility :=
  C5_price_floor_and_bounded_change (PriceSimulator.init 100 0.05 0) 1 0
    (by norm_num [PriceSimulator.init]) (by norm_num [PriceSimulator.init])

/-! ### Tokenomics engine (claims C6, C7) -/

lemma calculate_price_fst (e : TokenomicsEngine) (ts : ℚ) :
    (e.calculate_price ts).1 =
      max e.config.min_price (min e.config.max_price
        (e.current_price *
          (1 + (if e.circulating_supply > 0 then
              (e.buy_pressure - e.sell_pressure) / e.circulating_supply
            else 0) * e.config.stability_factor))) := rfl

lemma calculate_price_buy (e : TokenomicsEngine) (ts : ℚ) :
    (e.calculate_price ts).2.buy_pressure = e.buy_pressure * 0.9 := rfl

lemma calculate_price_sell (e : TokenomicsEngine) (ts : ℚ) :
    (e.calculate_price ts).2.sell_pressure = e.sell_pressure * 0.9 := rfl

/-- C6 (confirmed): for every engine state with a well-ordered price
band (`min_price <= max_price`) and arbitrary buy/sell pressure values,
`calculate_price` returns a price inside `[min_price, max_price]`, and
after the call both pressures are exactly `0.9` times their previous
values — the decay is unconditional, including when the circulating
supply is zero and when the price is clamped at a bound. -/
theorem C6_calculate_price_bounds_and_decay (e : TokenomicsEngine) (ts : ℚ)
    (h : e.config.min_price ≤ e.config.max_price) :
    e.config.min_price ≤ (e.calculate_price ts).1 ∧
    (e.calculate_price ts).1 ≤ e.config.max_price ∧
    (e.calculate_price ts).2.buy_pressure = 0.9 * e.buy_pressure ∧
    (e.calculate_price ts).2.sell_pressure = 0.9 * e.sell_pressure := by
  rw [calculate_price_fst, calculate_price_buy, calculate_price_sell]
  exact ⟨le_max_left _ _, max_le h (min_le_left _ _), mul_comm _ _, mul_comm _ _⟩

/-- C6 witness: with the default configuration (`min_price = 0.0001`,
`max_price = 1000`), zero supply and extreme pressures, the price stays
in band and both pressures decay by exactly `0.9`. -/
theorem C6_calculate_price_bounds_and_decay_witness :
    engineExtreme.config.min_price ≤ (engineExtreme.calculate_price 1).1 ∧
    (engineExtreme.calculate_price 1).1 ≤ engineExtreme.config.max_price ∧
    (engineExtreme.calculate_price 1).2.buy_pressure
      = 0.9 * engineExtreme.buy_pressure ∧
    (engineExtreme.calculate_price 1).2.sell_pressure
      = 0.9 * engineExtreme.sell_pressure :=
  C6_calculate_price_bounds_and_decay engineExtreme 1
    (by norm_num [engineExtreme])

/-- C7 (confirmed): from any state with
`0 <= circulating_supply <= total_supply` and a non-negative configured
block reward, `apply_block_reward` returns the configured reward
truncated to the remaining headroom (`min block_reward
(total_supply - circulating_supply)`), mints exactly that amount, never
pushes the circulating supply above the total supply, and returns
exactly `0` when the supply is already at the cap. -/
lemma apply_block_reward_fst (e : TokenomicsEngine) :
    e.apply_block_reward.1 =
      if e.circulating_supply + e.config.block_reward > e.total_supply then
        e.total_supply - e.circulating_supply
      else e.config.block_reward := rfl

lemma apply_block_reward_circ (e : TokenomicsEngine) :
    e.apply_block_reward.2.circulating_supply =
      if (if e.circulating_supply + e.config.block_reward > e.total_supply then
            e.total_supply - e.circulating_supply
          else e.config.block_reward) > 0 then
        min (e.circulating_supply
          + (if e.circulating_supply + e.config.block_reward > e.total_supply then
              e.total_supply - e.circulating_supply
            else e.config.block_reward)) e.total_supply
      else e.circulating_supply := by
  by_cases h : (if e.circulating_supply + e.config.block_reward > e.total_supply
      then e.total_supply - e.circulating_supply
      else e.config.block_reward) > 0 <;>
    simp [TokenomicsEngine.apply_block_reward, TokenomicsEngine.update_supply, h]

theorem C7_apply_block_reward_truncated (e : TokenomicsEngine)
    (h0 : 0 ≤ e.circulating_supply)
    (h1 : e.circulating_supply ≤ e.total_supply)
    (hbr : 0 ≤ e.config.block_reward) :
    e.apply_block_reward.1
      = min e.config.block_reward (e.total_supply - e.circulating_supply) ∧
    e.apply_block_reward.2.circulating_supply
      = e.circulating_supply + e.apply_block_reward.1 ∧
    e.apply_block_reward.2.circulating_supply ≤ e.total_supply ∧
    (e.circulating_supply = e.total_supply → e.apply_block_reward.1 = 0) := by
  rw [apply_block_reward_circ, apply_block_reward_fst]
  by_cases hover : e.circulating_supply + e.config.block_reward > e.total_supply
  · rw [if_pos hover]
    have hmin : min e.config.block_reward (e.total_supply - e.circulating_supply)
        = e.total_supply - e.circulating_supply := min_eq_right (by linarith)
    rw [hmin]
    by_cases hpos : e.total_supply - e.circulating_supply > 0
    · rw [if_pos hpos]
      have hcap : min (e.circulating_supply
            + (e.total_supply - e.circulating_supply)) e.total_supply
          = e.total_supply := by
        rw [add_sub_cancel]
        exact min_self _
      rw [hcap]
      refine ⟨rfl, by ring, le_refl _, ?_⟩
      intro hEq
      rw [hEq]
      ring
    · rw [if_neg hpos]
      have hz : e.total_supply - e.circulating_supply = 0 := by linarith
      rw [hz]
      exact ⟨rfl, by ring, h1, fun _ => rfl⟩
  · rw [if_neg hover]
    have hmin : min e.config.block_reward (e.total_supply - e.circulating_supply)
        = e.config.block_reward := min_eq_left (by linarith)
    rw [hmin]
    by_cases hpos : e.config.block_reward > 0
    · rw [if_pos hpos]
      have hcap : min (e.circulating_supply + e.config.block_reward) e.total_supply
          = e.circulating_supply + e.config.block_reward :=
        min_eq_left (by linarith)
      rw [hcap]
      exact ⟨rfl, rfl, by linarith, fun hEq => by linarith⟩
    · rw [if_neg hpos]
      have hz : e.config.block_reward = 0 := le_antisymm (not_lt.mp hpos) hbr
      rw [hz]
      exact ⟨rfl, by ring, h1, fun _ => rfl⟩

/-- C7 witness: the example scenario — the first call mints exactly
`10`, circulating supply becomes `1000` (and stays `<= total_supply` by
the theorem), and a subsequent call mints `0`. -/
theorem C7_apply_block_reward_truncated_witness :
    engine990.apply_block_reward.1 = 10 ∧
    engine990.apply_block_reward.2.circulating_supply = 1000 ∧
    engine990.apply_block_reward.2.circulating_supply ≤ engine990.total_supply ∧
    engine990.apply_block_reward.2.apply_block_reward.1 = 0 := by
  have h := C7_apply_block_reward_truncated engine990 (by norm_num [engine990])
    (by norm_num [engine990]) (by norm_num [engine990])
  refine ⟨?_, ?_, h.2.2.1, ?_⟩ <;>
    norm_num [engine990, TokenomicsEngine.apply_block_reward,
      TokenomicsEngine.update_supply, min_def]

/-! ### Sealing blocks (claim C8) -/

lemma simulator_create_block_fst (s : BlockchainSimulator) (now : ℚ) :
    (s.create_block now).1 =
      { index := s.blockchain.chain.length
        timestamp := now
        transactions := s.blockchain.pending_transactions.map
          (fun tx => { tx with block_index := some s.blockchain.chain.length })
        previous_hash := s.blockchain.get_latest_block.hash
        hash := blockGenHash s.blockchain.chain.length now
          s.blockchain.pending_transactions s.blockchain.get_latest_block.hash 0
        nonce := 0 } := rfl

lemma simulator_create_block_pending (s : BlockchainSimulator) (now : ℚ) :
    (s.create_block now).2.blockchain.pending_transactions = [] := rfl

/-- C8 (confirmed): on every reachable chain state (the last block's
index is one less than the chain length, as every chain built by the
code satisfies), `create_block()` without an explicit transaction list
seals the whole pending queue — the new block's transaction count equals
the queue length before the call — sets the new block's `previous_hash`
to the chain tail's hash, assigns the sequential successor index, stamps
every included transaction with the new block's index, and leaves the
pending queue empty. -/
theorem C8_create_block_seals_pending (s : BlockchainSimulator) (now : ℚ)
    (hidx : (s.blockchain.chain.getLastD default).index + 1
      = s.blockchain.chain.length) :
    (s.create_block now).1.transactions.length
      = s.blockchain.pending_transactions.length ∧
    (s.create_block now).1.previous_hash
      = (s.blockchain.chain.getLastD default).hash ∧
    (s.create_block now).1.index
      = (s.blockchain.chain.getLastD default).index + 1 ∧
    (∀ tx ∈ (s.create_block now).1.transactions,
      tx.block_index = some (s.create_block now).1.index) ∧
    (s.create_block now).2.blockchain.pending_transactions = [] := by
  rw [simulator_create_block_fst]
  refine ⟨List.length_map _ _, rfl, hidx.symm, ?_,
    simulator_create_block_pending s now⟩
  intro tx htx
  simp only [List.mem_map] at htx
  obtain ⟨tx0, -, rfl⟩ := htx
  rfl

/-- C8 witness: sealing the one-transaction pending queue of the
concrete state `simSeal` produces a block with one transaction, linked
to the genesis hash, at index `1`, with the transaction stamped, and an
empty pending queue. -/
theorem C8_create_block_seals_pending_witness :
    (simSeal.create_block 2).1.transactions.length
      = simSeal.blockchain.pending_transactions.length ∧
    (simSeal.create_block 2).1.previous_hash
      = (simSeal.blockchain.chain.getLastD default).hash ∧
    (simSeal.create_block 2).1.index = 1 ∧
    ((simSeal.create_block 2).1.transactions.getD 0
        (mkTransaction "" "" 0 0)).block_index
      = some (simSeal.create_block 2).1.index ∧
    (simSeal.create_block 2).2.blockchain.pending_transactions = [] := by
  have h := C8_create_block_seals_pending simSeal 2 (by decide)
  refine ⟨h.1, h.2.1, ?_, ?_, h.2.2.2.2⟩
  · rw [h.2.2.1]
    decide
  · have hmem : (simSeal.create_block 2).1.transactions.getD 0
        (mkTransaction "" "" 0 0) ∈ (simSeal.create_block 2).1.transactions := by
      decide
    exact h.2.2.2.1 _ hmem

/-! ### Support/resistance component (claim C9) -/

/-- C9 counterexample: with support level `100` and current price `104`
(within 5% above the support), the claim's reading predicts a `+0.02`
component, but the code's condition is `0.95 * support <= price <=
support` — price BELOW the support — so the code yields `0`. -/
theorem C9_direction_counterexample :
    simNearSupport.support_resistance_effect = 0 ∧
    support_resistance_effect_claimed simNearSupport = 0.02 := by
  constructor <;>
    norm_num [simNearSupport, PriceSimulator.init,
      PriceSimulator.support_resistance_effect,
      support_resistance_effect_claimed, List.filter, List.foldl]

lemma foldl_if_add (p : ℚ → Prop) [DecidablePred p] (d : ℚ) :
    ∀ (l : List ℚ) (init : ℚ),
      l.foldl (fun e x => if p x then e + d else e) init
        = init + d * ((l.filter fun x => decide (p x)).length : ℚ) := by
  intro l
  induction l with
  | nil => intro init; simp
  | cons x t ih =>
      intro init
      by_cases hx : p x <;>
        simp [List.foldl, List.filter, hx, ih] <;> push_cast <;> ring

lemma foldl_if_sub (p : ℚ → Prop) [DecidablePred p] (d : ℚ) :
    ∀ (l : List ℚ) (init : ℚ),
      l.foldl (fun e x => if p x then e - d else e) init
        = init - d * ((l.filter fun x => decide (p x)).length : ℚ) := by
  intro l
  induction l with
  | nil => intro init; simp
  | cons x t ih =>
      intro init
      by_cases hx : p x <;>
        simp [List.foldl, List.filter, hx, ih] <;> push_cast <;> ring

/-- C9 (corrected): the support/resistance component equals `0.02` times
the number of support levels the current price sits within 5% BELOW OR
AT (`0.95 * support <= price <= support`), minus `0.02` times the number
of resistance levels the current price sits within 5% ABOVE OR AT
(`resistance <= price <= 1.05 * resistance`); effects from multiple
levels stack additively and are not mutually exclusive.  (The claim's
directions are swapped relative to the code.) -/
theorem C9_support_resistance_additive (s : PriceSimulator) :
    s.support_resistance_effect =
      0.02 * ((s.support_levels.filter fun lvl =>
          decide (0.95 * lvl ≤ s.current_price ∧ s.current_price ≤ lvl)).length : ℚ)
        - 0.02 * ((s.resistance_levels.filter fun lvl =>
          decide (lvl ≤ s.current_price ∧ s.current_price ≤ 1.05 * lvl)).length : ℚ) := by
  unfold PriceSimulator.support_resistance_effect
  rw [foldl_if_add (fun lvl => 0.95 * lvl ≤ s.current_price ∧ s.current_price ≤ lvl)
      0.02 s.support_levels 0,
    foldl_if_sub (fun lvl => lvl ≤ s.current_price ∧ s.current_price ≤ 1.05 * lvl)
      0.02 s.resistance_levels]
  ring

/-! ### Generated transaction amounts (claim C10) -/

lemma round2_ge (k : ℤ) (x : ℚ) (h : (k : ℚ) ≤ x * 100) :
    (k : ℚ) / 100 ≤ round2 x := by
  unfold round2
  have hfl : k ≤ ⌊x * 100⌋ := Int.le_floor.mpr h
  have hn : k ≤ (if x * 100 - ⌊x * 100⌋ = 1 / 2 then
      (if ⌊x * 100⌋ % 2 = 0 then ⌊x * 100⌋ else ⌊x * 100⌋ + 1)
    else round (x * 100)) := by
    by_cases ht : x * 100 - ⌊x * 100⌋ = 1 / 2
    · rw [if_pos ht]
      by_cases he : ⌊x * 100⌋ % 2 = 0
      · rw [if_pos he]; exact hfl
      · rw [if_neg he]; omega
    · rw [if_neg ht, round_eq]
      have : ⌊x * 100⌋ ≤ ⌊x * 100 + 1 / 2⌋ := Int.floor_le_floor (by linarith)
      omega
  have : (k : ℚ) ≤ ((if x * 100 - ⌊x * 100⌋ = 1 / 2 then
      (if ⌊x * 100⌋ % 2 = 0 then ⌊x * 100⌋ else ⌊x * 100⌋ + 1)
    else round (x * 100) : ℤ) : ℚ) := by exact_mod_cast hn
  linarith

lemma round2_le (k : ℤ) (x : ℚ) (h : x * 100 ≤ (k : ℚ)) :
    round2 x ≤ (k : ℚ) / 100 := by
  unfold round2
  have hn : (if x * 100 - ⌊x * 100⌋ = 1 / 2 then
      (if ⌊x * 100⌋ % 2 = 0 then ⌊x * 100⌋ else ⌊x * 100⌋ + 1)
    else round (x * 100)) ≤ k := by
    by_cases ht : x * 100 - ⌊x * 100⌋ = 1 / 2
    · rw [if_pos ht]
      have hlt : (⌊x * 100⌋ : ℚ) < (k : ℚ) := by
        have : (⌊x * 100⌋ : ℚ) = x * 100 - 1 / 2 := by linarith
        linarith
      have hlt' : ⌊x * 100⌋ < k := by exact_mod_cast hlt
      by_cases he : ⌊x * 100⌋ % 2 = 0
      · rw [if_pos he]; omega
      · rw [if_neg he]; omega
    · rw [if_neg ht, round_eq]
      have hk : ⌊x * 100 + 1 / 2⌋ ≤ ⌊(k : ℚ) + 1 / 2⌋ :=
        Int.floor_le_floor (by linarith)
      have hkk : ⌊(k : ℚ) + 1 / 2⌋ = k := by
        rw [add_comm, Int.floor_add_int]
        norm_num
      omega
  have : ((if x * 100 - ⌊x * 100⌋ = 1 / 2 then
      (if ⌊x * 100⌋ % 2 = 0 then ⌊x * 100⌋ else ⌊x * 100⌋ + 1)
    else round (x * 100) : ℤ) : ℚ) ≤ (k : ℚ) := by exact_mod_cast hn
  linarith

lemma uniformDraw_mem (a b u : ℚ) (hab : a ≤ b) (h0 : 0 ≤ u) (h1 : u ≤ 1) :
    a ≤ uniformDraw a b u ∧ uniformDraw a b u ≤ b := by
  unfold uniformDraw
  constructor <;> nlinarith

/-- The generated amount is the rounded uniform draw from the whale or
retail range, whatever the transaction type. -/
lemma generate_transaction_amount (g : TransactionGenerator) (r : GenRand) :
    (g.generate_transaction r).amount =
      round2 (if r.whaleRand < g.whale_threshold then
          uniformDraw (g.max_amount * 0.5) g.max_amount r.u
        else uniformDraw g.min_amount (g.max_amount * 0.1) r.u) := by
  unfold TransactionGenerator.generate_transaction
  by_cases h1 : r.typeRand < g.buy_probability
  · simp [h1]
  · by_cases h2 : r.typeRand < g.buy_probability + g.sell_probability
    · simp [h1, h2]
    · simp [h1, h2]

/-- C10 (confirmed): with the generator's default amount parameters
(`min_amount = 1`, `max_amount = 10000`) and any outcome of the random
draws (`u` being the position of the uniform draw inside its range),
the generated amount is at least `1`; it lies in the whale range
`[5000, 10000]` when the whale draw fires (`whaleRand <
whale_threshold`, probability `0.1` for a uniform draw against the
default threshold) and in the retail range `[1, 1000]` otherwise; and
consequently, against any ledger state, `add_transaction` rejects the
generated transaction exactly for insufficient balance, never for a
non-positive amount. -/
theorem C10_generated_amount_positive (g : TransactionGenerator) (r : GenRand)
    (hmin : g.min_amount = 1) (hmax : g.max_amount = 10000)
    (hu0 : 0 ≤ r.u) (hu1 : r.u ≤ 1) :
    1 ≤ (g.generate_transaction r).amount ∧
    (r.whaleRand < g.whale_threshold →
      5000 ≤ (g.generate_transaction r).amount ∧
      (g.generate_transaction r).amount ≤ 10000) ∧
    (¬ r.whaleRand < g.whale_threshold →
      1 ≤ (g.generate_transaction r).amount ∧
      (g.generate_transaction r).amount ≤ 1000) ∧
    ∀ (s : BlockchainSimulator) (now : ℚ),
      ((s.add_transaction (g.generate_transaction r).from_address
          (g.generate_transaction r).to_address
          (g.generate_transaction r).amount now).1 = none ↔
        ((g.generate_transaction r).from_address ≠ "SYSTEM" ∧
          lookupD s.ledger (g.generate_transaction r).from_address
            < (g.generate_transaction r).amount)) := by
  have hamt := generate_transaction_amount g r
  rw [hmin, hmax] at hamt
  have hbounds : (1 : ℚ) ≤ (g.generate_transaction r).amount ∧
      (r.whaleRand < g.whale_threshold →
        5000 ≤ (g.generate_transaction r).amount ∧
        (g.generate_transaction r).amount ≤ 10000) ∧
      (¬ r.whaleRand < g.whale_threshold →
        1 ≤ (g.generate_transaction r).amount ∧
        (g.generate_transaction r).amount ≤ 1000) := by
    by_cases hw : r.whaleRand < g.whale_threshold
    · rw [if_pos hw] at hamt
      have hd := uniformDraw_mem (10000 * 0.5) 10000 r.u (by norm_num) hu0 hu1
      have hlo := round2_ge 500000 (uniformDraw (10000 * 0.5) 10000 r.u)
        (by push_cast; nlinarith [hd.1])
      have hhi := round2_le 1000000 (uniformDraw (10000 * 0.5) 10000 r.u)
        (by push_cast; nlinarith [hd.2])
      rw [← hamt] at hlo hhi
      norm_num at hlo hhi
      exact ⟨by linarith, fun _ => ⟨hlo, hhi⟩, fun hc => absurd hw hc⟩
    · rw [if_neg hw] at hamt
      have hd := uniformDraw_mem 1 (10000 * 0.1) r.u (by norm_num) hu0 hu1
      have hlo := round2_ge 100 (uniformDraw 1 (10000 * 0.1) r.u)
        (by push_cast; nlinarith [hd.1])
      have hhi := round2_le 100000 (uniformDraw 1 (10000 * 0.1) r.u)
        (by push_cast; nlinarith [hd.2])
      rw [← hamt] at hlo hhi
      norm_num at hlo hhi
      exact ⟨hlo, fun hc => absurd hc hw, fun _ => ⟨hlo, hhi⟩⟩
  refine ⟨hbounds.1, hbounds.2.1, hbounds.2.2, ?_⟩
  intro s now
  rw [add_transaction_rejects_iff]
  have hpos : ¬ (g.generate_transaction r).amount ≤ 0 := by
    have := hbounds.1
    linarith
  simp [hpos]

/-- C10 witness: the default generator with a concrete retail draw
produces an amount `>= 1`, and against the `{A: 100}` ledger the
rejection condition for that generated transaction is exactly the
insufficient-balance condition. -/
theorem C10_generated_amount_positive_witness :
    1 ≤ (genDefault.generate_transaction randRetail).amount ∧
    ((simA.add_transaction (genDefault.generate_transaction randRetail).from_address
        (genDefault.generate_transaction randRetail).to_address
        (genDefault.generate_transaction randRetail).amount 3).1 = none ↔
      ((genDefault.generate_transaction randRetail).from_address ≠ "SYSTEM" ∧
        lookupD simA.ledger
            (genDefault.generate_transaction randRetail).from_address
          < (genDefault.generate_transaction randRetail).amount)) := by
  have h := C10_generated_amount_positive genDefault randRetail rfl rfl
    (by norm_num [randRetail]) (by norm_num [randRetail])
  exact ⟨h.1, h.2.2.2 simA 3⟩
